import Mathlib

/-!
Verification of the incremental transcript builder of `src/data_agent_demo.py`.

The core under verification:
  * `stream_events`  — the event-stream reducer (lines 72–128 of the source):
    a loop that matches on the SSE event kind string, decodes the payload with
    the corresponding `*.from_json`, and mutates the content map, the per-slot
    text buffers, the Streamlit session transcript (`st.session_state.messages`)
    and the spinner/error UI sinks.
  * `process_new_message` — the prompt augmenter and user-turn driver
    (lines 133–186): folds the normalized filter snapshot into the user text as
    SQL-style `IN` clauses, appends the user `Message` to the transcript, and
    (on a successful dispatch) runs `stream_events` on the resulting stream.

The typed event records (`StatusEventData`, `TextDeltaEventData`, …) and their
`from_json` decoders live in `models.py`, which is not part of the sources at
hand; they are modelled from the spec's decoder contract (§4.1: produce a
strongly-typed record, or fail with `DecodeError` when the payload does not
match the schema implied by the kind tag).  Raw payloads are modelled as
already-JSON-parsed shapes (`RawPayload`), with a `garbage` constructor for a
payload matching no recognized schema; a decoder succeeds exactly on the shape
its kind implies.  The `thinking` (non-delta) case of the source decodes with
`ThinkingDeltaEventData.from_json` (line 98), which we reproduce.

External collaborators (HTTP transport, Streamlit rendering, numpy/pandas
conversion, the Azure filter fetch) are at the model boundary: the render
adapter is modelled as the last content written per slot (`contentMap`), the
error sink as the list of `st.error` strings, the spinner as its current label.
`json.loads` of a chart spec string is folded into the render boundary (an
invalid spec string would raise exactly like a decode failure; JSON-text
well-formedness itself is not modelled, and no claim depends on it).
-/

namespace DataAgentDemo

/-- A scalar cell of a tabular result set (`result_set.data` holds a matrix of
JSON scalars, e.g. `[[1, "a"]]`). -/
inductive Cell where
  | num (n : Int)
  | str (v : String)
deriving DecidableEq

/-- One entry of `result_set.result_set_meta_data.row_type`; the source reads
`col.name` from it (line 114–116). -/
structure ColumnInfo where
  name : String
deriving DecidableEq

/-- `result_set.result_set_meta_data` of a `table` event payload. -/
structure ResultSetMetaData where
  row_type : List ColumnInfo
deriving DecidableEq

/-- The `result_set` of a `table` event payload: the row matrix `data` plus the
column metadata, as accessed by the source (lines 112–116). -/
structure ResultSet where
  data : List (List Cell)
  result_set_meta_data : ResultSetMetaData
deriving DecidableEq

/-- One item of a `Message`'s content list: the tagged union over content
variants (spec §3).  The user turn builds a `text` item; a terminal `response`
payload may carry any of these. -/
inductive ContentItem where
  | text (text : String)
  | thinking (text : String)
  | tool_use (raw : String)
  | tool_result (raw : String)
  | chart (chart_spec : String)
  | table (result_set : ResultSet)
  | other (raw : String)
deriving DecidableEq

/-- A transcript message: `{role, content}` (spec §3; the source constructs
`Message(role="user", content=[...])` and decodes assistant messages from the
terminal `response` event). -/
structure Message where
  role : String
  content : List ContentItem
deriving DecidableEq

/-- `StatusEventData`: `{message: string}`. -/
structure StatusEventData where
  message : String
deriving DecidableEq

/-- `TextDeltaEventData`: `{content_index: int, text: string}`. -/
structure TextDeltaEventData where
  content_index : Int
  text : String
deriving DecidableEq

/-- `ThinkingDeltaEventData`: `{content_index: int, text: string}` — the same
shape as a text delta; the source also uses it to decode the non-delta
`thinking` event (line 98). -/
structure ThinkingDeltaEventData where
  content_index : Int
  text : String
deriving DecidableEq

/-- `ToolUseEventData`: `{content_index, ...opaque tool invocation}`. -/
structure ToolUseEventData where
  content_index : Int
  tool : String
deriving DecidableEq

/-- `ToolResultEventData`: `{content_index, ...opaque tool output}`. -/
structure ToolResultEventData where
  content_index : Int
  result : String
deriving DecidableEq

/-- `ChartEventData`: `{content_index, chart_spec: string (JSON-encoded)}`. -/
structure ChartEventData where
  content_index : Int
  chart_spec : String
deriving DecidableEq

/-- `TableEventData`: `{content_index, result_set}`. -/
structure TableEventData where
  content_index : Int
  result_set : ResultSet
deriving DecidableEq

/-- `ErrorEventData`: `{message: string, code: value}`. -/
structure ErrorEventData where
  message : String
  code : Int
deriving DecidableEq

/-- Modelled from the spec: the already-JSON-parsed payload of one raw server
event (`models.py`, which defines the wire schemas, is not among the sources).
Each constructor is one recognized payload schema of §4.1; `garbage` stands for
a payload matching no recognized schema.  Note `text.delta`, `thinking.delta`
and `thinking` share the `{content_index, text}` shape (`deltaP`). -/
inductive RawPayload where
  | statusP (message : String)
  | deltaP (content_index : Int) (text : String)
  | toolUseP (content_index : Int) (tool : String)
  | toolResultP (content_index : Int) (result : String)
  | chartP (content_index : Int) (chart_spec : String)
  | tableP (content_index : Int) (result_set : ResultSet)
  | errorP (message : String) (code : Int)
  | responseP (role : String) (content : List ContentItem)
  | garbage (raw : String)
deriving DecidableEq

/-- One raw server-sent event as iterated by the source's
`sseclient.SSEClient(response).events()` loop: a kind tag (`event.event`) plus
its payload (`event.data`). -/
structure RawEvent where
  event : String
  data : RawPayload
deriving DecidableEq

/-- Modelled from the spec: `StatusEventData.from_json` — succeeds exactly on a
`{message}` payload. -/
def StatusEventData.from_json : RawPayload → Option StatusEventData
  | .statusP m => some ⟨m⟩
  | _ => none

/-- Modelled from the spec: `TextDeltaEventData.from_json` — succeeds exactly
on a `{content_index, text}` payload. -/
def TextDeltaEventData.from_json : RawPayload → Option TextDeltaEventData
  | .deltaP i t => some ⟨i, t⟩
  | _ => none

/-- Modelled from the spec: `ThinkingDeltaEventData.from_json` — succeeds
exactly on a `{content_index, text}` payload. -/
def ThinkingDeltaEventData.from_json : RawPayload → Option ThinkingDeltaEventData
  | .deltaP i t => some ⟨i, t⟩
  | _ => none

/-- Modelled from the spec: `ToolUseEventData.from_json`. -/
def ToolUseEventData.from_json : RawPayload → Option ToolUseEventData
  | .toolUseP i p => some ⟨i, p⟩
  | _ => none

/-- Modelled from the spec: `ToolResultEventData.from_json`. -/
def ToolResultEventData.from_json : RawPayload → Option ToolResultEventData
  | .toolResultP i p => some ⟨i, p⟩
  | _ => none

/-- Modelled from the spec: `ChartEventData.from_json`. -/
def ChartEventData.from_json : RawPayload → Option ChartEventData
  | .chartP i sp => some ⟨i, sp⟩
  | _ => none

/-- Modelled from the spec: `TableEventData.from_json`. -/
def TableEventData.from_json : RawPayload → Option TableEventData
  | .tableP i rs => some ⟨i, rs⟩
  | _ => none

/-- Modelled from the spec: `ErrorEventData.from_json`. -/
def ErrorEventData.from_json : RawPayload → Option ErrorEventData
  | .errorP m c => some ⟨m, c⟩
  | _ => none

/-- Modelled from the spec: `Message.from_json` — decodes the terminal
`response` payload `{role, content}`. -/
def Message.from_json : RawPayload → Option Message
  | .responseP r c => some ⟨r, c⟩
  | _ => none

/-- The dispatch-plus-decode of one loop iteration of `stream_events`
(lines 81–127): the Python `match event.event` selects a recognized kind, whose
branch decodes with the corresponding `from_json`.  `unknown` is a kind string
matching no case (the Python `match` falls through silently);  `decodeFailure`
is a recognized kind whose payload fails to decode (the uncaught `from_json`
exception). -/
inductive Decoded where
  | status (d : StatusEventData)
  | textDelta (d : TextDeltaEventData)
  | thinkingDelta (d : ThinkingDeltaEventData)
  | thinkingFull (d : ThinkingDeltaEventData)
  | toolUse (d : ToolUseEventData)
  | toolResult (d : ToolResultEventData)
  | chart (d : ChartEventData)
  | table (d : TableEventData)
  | errorEv (d : ErrorEventData)
  | response (m : Message)
  | unknown
  | decodeFailure
deriving DecidableEq

/-- Classify one raw event exactly as the source's `match event.event` with the
per-branch `from_json` calls does (kind strings from lines 82, 87, 91, 97, 100,
103, 106, 110, 120, 125; the `thinking` branch decodes with
`ThinkingDeltaEventData.from_json`, line 98). -/
def classify (ev : RawEvent) : Decoded :=
  match ev.event with
  | "response.status" =>
    match StatusEventData.from_json ev.data with
    | some d => .status d
    | none => .decodeFailure
  | "response.text.delta" =>
    match TextDeltaEventData.from_json ev.data with
    | some d => .textDelta d
    | none => .decodeFailure
  | "response.thinking.delta" =>
    match ThinkingDeltaEventData.from_json ev.data with
    | some d => .thinkingDelta d
    | none => .decodeFailure
  | "response.thinking" =>
    match ThinkingDeltaEventData.from_json ev.data with
    | some d => .thinkingFull d
    | none => .decodeFailure
  | "response.tool_use" =>
    match ToolUseEventData.from_json ev.data with
    | some d => .toolUse d
    | none => .decodeFailure
  | "response.tool_result" =>
    match ToolResultEventData.from_json ev.data with
    | some d => .toolResult d
    | none => .decodeFailure
  | "response.chart" =>
    match ChartEventData.from_json ev.data with
    | some d => .chart d
    | none => .decodeFailure
  | "response.table" =>
    match TableEventData.from_json ev.data with
    | some d => .table d
    | none => .decodeFailure
  | "error" =>
    match ErrorEventData.from_json ev.data with
    | some d => .errorEv d
    | none => .decodeFailure
  | "response" =>
    match Message.from_json ev.data with
    | some m => .response m
    | none => .decodeFailure
  | _ => .unknown

/-- What the render adapter last received for one content slot: each slot of
the source is an `st.empty` placeholder (auto-created by
`defaultdict(content.empty)`), whose next write replaces its display. -/
inductive Rendered where
  | written (text : String)
  | thinkingBox (expanded : Bool) (text : String)
  | toolUseJson (d : ToolUseEventData)
  | toolResultJson (d : ToolResultEventData)
  | vegaChart (chart_spec : String)
  | dataframe (columns : List String) (rows : List (List Cell))
deriving DecidableEq

/-- Association-list lookup keyed by `content_index`. -/
def aget {α : Type} : List (Int × α) → Int → Option α
  | [], _ => none
  | (k₂, v) :: rest, k => if k = k₂ then some v else aget rest k

/-- Association-list update: replace the binding of `k`, or add one. -/
def aset {α : Type} : List (Int × α) → Int → α → List (Int × α)
  | [], k, v => [(k, v)]
  | (k₂, v₂) :: rest, k, v =>
    if k = k₂ then (k, v) :: rest else (k₂, v₂) :: aset rest k v

/-- Read of the `defaultdict(str)` buffer table: a missing index reads as the
empty string. -/
def bufGet (l : List (Int × String)) (k : Int) : String :=
  (aget l k).getD ""

/-- The mutable state threaded through one `stream_events` call:
`contentMap` and `buffers` are the loop's `defaultdict`s, `spinnerLabel` the
current spinner, `messages` the session transcript
(`st.session_state.messages`), `errors` the strings passed to `st.error`. -/
structure StreamState where
  contentMap : List (Int × Rendered)
  buffers : List (Int × String)
  spinnerLabel : Option String
  messages : List Message
  errors : List String
deriving DecidableEq

/-- Outcome of one loop iteration: continue (`next`), the `return` of the
`error` branch (`halt`), or an uncaught Python exception propagating out of the
loop (`raise`) — a `from_json` decode failure, or `list.pop()` on an empty
transcript. -/
inductive Outcome where
  | next (s : StreamState)
  | halt (s : StreamState)
  | raise (s : StreamState)
deriving DecidableEq

/-- The state carried by an outcome. -/
def Outcome.state : Outcome → StreamState
  | .next s => s
  | .halt s => s
  | .raise s => s

/-- The string passed to the error sink by the `error` branch (line 122):
`f"Error: {data.message} (code: {data.code})"`. -/
def errorText (d : ErrorEventData) : String :=
  "Error: " ++ d.message ++ " (code: " ++ toString d.code ++ ")"

/-- Apply one classified event to the state, mirroring the body of each `case`
of the source's `match` (lines 82–127):
  * `status`: exit the old spinner, enter one labelled `data.message`;
  * `text.delta` / `thinking.delta`: `buffers[i] += text`, then write the
    entire accumulated buffer to slot `i` (delta thinking in an expanded
    "Thinking" expander);
  * `thinking` (non-delta): write `data.text` itself to slot `i` (collapsed
    expander); the buffer table is not touched;
  * `tool_use` / `tool_result`: render the decoded record as JSON in slot `i`;
  * `chart`: render the chart spec in slot `i`;
  * `table`: extract the column names from
    `result_set.result_set_meta_data.row_type` and render the dataframe;
  * `error`: `st.error(f"Error: {message} (code: {code})")`, then
    `st.session_state.messages.pop()` and `return` (pop on an empty list
    raises `IndexError`);
  * `response`: append the decoded `Message` to the transcript;
  * unrecognized kind: fall through, continue the loop;
  * decode failure: the exception propagates, aborting the loop. -/
def applyDecoded (s : StreamState) : Decoded → Outcome
  | .status d => .next { s with spinnerLabel := some d.message }
  | .textDelta d =>
    let buf := bufGet s.buffers d.content_index ++ d.text
    .next { s with
      buffers := aset s.buffers d.content_index buf,
      contentMap := aset s.contentMap d.content_index (.written buf) }
  | .thinkingDelta d =>
    let buf := bufGet s.buffers d.content_index ++ d.text
    .next { s with
      buffers := aset s.buffers d.content_index buf,
      contentMap := aset s.contentMap d.content_index (.thinkingBox true buf) }
  | .thinkingFull d =>
    .next { s with
      contentMap := aset s.contentMap d.content_index (.thinkingBox false d.text) }
  | .toolUse d =>
    .next { s with contentMap := aset s.contentMap d.content_index (.toolUseJson d) }
  | .toolResult d =>
    .next { s with contentMap := aset s.contentMap d.content_index (.toolResultJson d) }
  | .chart d =>
    .next { s with contentMap := aset s.contentMap d.content_index (.vegaChart d.chart_spec) }
  | .table d =>
    let column_names := d.result_set.result_set_meta_data.row_type.map
      (fun col => col.name)
    .next { s with
      contentMap := aset s.contentMap d.content_index
        (.dataframe column_names d.result_set.data) }
  | .errorEv d =>
    if s.messages.isEmpty then .raise { s with errors := s.errors ++ [errorText d] }
    else .halt { s with
      errors := s.errors ++ [errorText d],
      messages := s.messages.dropLast }
  | .response m => .next { s with messages := s.messages ++ [m] }
  | .unknown => .next s
  | .decodeFailure => .raise s

/-- One iteration of the `stream_events` loop on one raw event. -/
def step (s : StreamState) (ev : RawEvent) : Outcome :=
  applyDecoded s (classify ev)

/-- The `for event in events` loop of `stream_events`: `halt` is the `return`
of the `error` branch, `raise` an uncaught exception; both end the loop with
the state reached so far.  (The trailing `spinner.__exit__` of the source only
dismisses the progress UI.) -/
def streamLoop (s : StreamState) : List RawEvent → StreamState
  | [] => s
  | e :: rest =>
    match step s e with
    | .next s' => streamLoop s' rest
    | .halt s' => s'
    | .raise s' => s'

/-- `stream_events` (lines 72–128): fresh `content_map` and `buffers`, the
initial "Waiting for response..." spinner, then the event loop over the given
transcript and error sink. -/
def stream_events (messages : List Message) (errors : List String)
    (events : List RawEvent) : StreamState :=
  streamLoop
    { contentMap := [], buffers := [],
      spinnerLabel := some "Waiting for response...",
      messages := messages, errors := errors }
    events

/-- A normalized filter of the snapshot (`{"field": ..., "values": [...]}`,
line 157). -/
structure Filter where
  field : String
  values : List String
deriving DecidableEq

/-- The prompt augmentation of `process_new_message` (lines 162–169): with a
non-empty filter snapshot, each filter becomes `field IN ('v1', 'v2', ...)`;
the clauses are joined by `' AND '` and appended to the user text after a
single space; an empty snapshot leaves the prompt unchanged. -/
def build_full_prompt (user_prompt : String) (normalized_filters : List Filter) :
    String :=
  if normalized_filters.isEmpty then user_prompt
  else
    let where_clauses := normalized_filters.map (fun f =>
      f.field ++ " IN (" ++
        String.intercalate ", " (f.values.map (fun v => "'" ++ v ++ "'")) ++ ")")
    user_prompt ++ " " ++ String.intercalate " AND " where_clauses

/-- The speculative user `Message` built at lines 172–175:
`Message(role="user", content=[MessageContentItem(TextContentItem(type="text",
text=full_prompt))])`. -/
def userMessage (user_prompt : String) (normalized_filters : List Filter) :
    Message :=
  ⟨"user", [ContentItem.text (build_full_prompt user_prompt normalized_filters)]⟩

/-- `process_new_message` (lines 133–186) on its successful-dispatch path:
augment the prompt with the filter snapshot, append the speculative user
message to the transcript, and run `stream_events` on the stream returned by
`agent_run`.  (The Azure filter fetch and its normalization produce
`normalized_filters` and are external input here; `agent_run`, the request-id
markdown and `render_message` are transport/UI collaborators that do not touch
the transcript.) -/
def process_new_message (messages : List Message) (errors : List String)
    (user_prompt : String) (normalized_filters : List Filter)
    (events : List RawEvent) : StreamState :=
  stream_events (messages ++ [userMessage user_prompt normalized_filters])
    errors events

/-- A raw `response.text.delta` event carrying `{content_index := i, text := t}`. -/
def textDeltaEv (i : Int) (t : String) : RawEvent :=
  ⟨"response.text.delta", .deltaP i t⟩

/-- A raw non-delta `response.thinking` event. -/
def thinkingEv (i : Int) (t : String) : RawEvent :=
  ⟨"response.thinking", .deltaP i t⟩

/-- A raw `error` event. -/
def errorEvent (m : String) (c : Int) : RawEvent :=
  ⟨"error", .errorP m c⟩

/-- A raw terminal `response` event. -/
def responseEv (m : Message) : RawEvent :=
  ⟨"response", .responseP m.role m.content⟩

/-- A raw `response.table` event. -/
def tableEv (i : Int) (rows : List (List Cell)) (cols : List ColumnInfo) :
    RawEvent :=
  ⟨"response.table", .tableP i ⟨rows, ⟨cols⟩⟩⟩

/-- An event is benign when its loop iteration continues (`next`) and leaves
both the transcript and the error sink untouched: every recognized,
well-decoding kind except `error` and `response`, plus unrecognized kinds. -/
def benign (ev : RawEvent) : Bool :=
  match classify ev with
  | .errorEv _ => false
  | .response _ => false
  | .decodeFailure => false
  | _ => true

/-- An event is processable when its loop iteration continues (`next`): benign
events plus well-decoding `response` events. -/
def processable (ev : RawEvent) : Bool :=
  match classify ev with
  | .errorEv _ => false
  | .decodeFailure => false
  | _ => true

/-- The `response` payloads of a stream, in order. -/
def responsesOf : List RawEvent → List Message
  | [] => []
  | e :: rest =>
    match classify e with
    | .response m => m :: responsesOf rest
    | _ => responsesOf rest

/-- The sequence `t1 ++ t2 ++ ... ++ tn` of a list of delta texts. -/
def concatAll : List String → String
  | [] => ""
  | t :: ts => t ++ concatAll ts

theorem aget_aset_self {α : Type} (l : List (Int × α)) (k : Int) (v : α) :
    aget (aset l k v) k = some v := by
  induction l with
  | nil => simp [aset, aget]
  | cons p rest ih =>
    obtain ⟨k₂, v₂⟩ := p
    by_cases h : k = k₂ <;> simp [aset, aget, h, ih]

theorem bufGet_aset_self (l : List (Int × String)) (k : Int) (v : String) :
    bufGet (aset l k v) k = v := by
  rw [bufGet, aget_aset_self]
  rfl

theorem step_textDelta (s : StreamState) (i : Int) (t : String) :
    step s (textDeltaEv i t) = .next { s with
      buffers := aset s.buffers i (bufGet s.buffers i ++ t),
      contentMap := aset s.contentMap i (.written (bufGet s.buffers i ++ t)) } :=
  rfl

theorem benign_step (s : StreamState) (ev : RawEvent) (h : benign ev = true) :
    ∃ s' : StreamState,
      step s ev = .next s' ∧ s'.messages = s.messages ∧ s'.errors = s.errors := by
  unfold step
  cases hc : classify ev <;> simp [benign, hc] at h ⊢ <;>
    exact ⟨_, rfl, rfl, rfl⟩

theorem benign_run (pre : List RawEvent) :
    ∀ s : StreamState, (∀ e ∈ pre, benign e = true) →
      ∃ s' : StreamState,
        (∀ rest : List RawEvent, streamLoop s (pre ++ rest) = streamLoop s' rest) ∧
        s'.messages = s.messages ∧ s'.errors = s.errors := by
  induction pre with
  | nil =>
    intro s _
    exact ⟨s, fun rest => by rw [List.nil_append], rfl, rfl⟩
  | cons e pre ih =>
    intro s h
    obtain ⟨s₁, hstep, hm, he⟩ := benign_step s e (h e (List.mem_cons_self e pre))
    obtain ⟨s', hloop, hm', he'⟩ := ih s₁ (fun x hx => h x (List.mem_cons_of_mem e hx))
    refine ⟨s', fun rest => ?_, hm'.trans hm, he'.trans he⟩
    rw [List.cons_append]
    simp only [streamLoop, hstep]
    exact hloop rest

theorem textDeltaRun (i : Int) (ts : List String) :
    ∀ s : StreamState,
      bufGet (streamLoop s (ts.map (textDeltaEv i))).buffers i
        = bufGet s.buffers i ++ concatAll ts ∧
      (ts ≠ [] →
        aget (streamLoop s (ts.map (textDeltaEv i))).contentMap i
          = some (.written (bufGet s.buffers i ++ concatAll ts))) := by
  induction ts with
  | nil =>
    intro s
    refine ⟨?_, fun hne => absurd rfl hne⟩
    show bufGet s.buffers i = bufGet s.buffers i ++ concatAll []
    rw [concatAll, String.append_empty]
  | cons t ts ih =>
    intro s
    have hloop : streamLoop s ((t :: ts).map (textDeltaEv i))
        = streamLoop { s with
            buffers := aset s.buffers i (bufGet s.buffers i ++ t),
            contentMap := aset s.contentMap i (.written (bufGet s.buffers i ++ t)) }
          (ts.map (textDeltaEv i)) := by
      simp only [List.map_cons, streamLoop, step_textDelta]
    obtain ⟨hbuf, hmap⟩ := ih { s with
      buffers := aset s.buffers i (bufGet s.buffers i ++ t),
      contentMap := aset s.contentMap i (.written (bufGet s.buffers i ++ t)) }
    rw [hloop]
    constructor
    · rw [hbuf]
      show bufGet (aset s.buffers i (bufGet s.buffers i ++ t)) i ++ concatAll ts = _
      rw [bufGet_aset_self, concatAll, String.append_assoc]
    · intro _
      cases ts with
      | nil =>
        show aget (aset s.contentMap i (.written (bufGet s.buffers i ++ t))) i = _
        rw [aget_aset_self, concatAll, concatAll, String.append_empty]
      | cons t' ts' =>
        rw [hmap (by simp)]
        show some (Rendered.written
            (bufGet (aset s.buffers i (bufGet s.buffers i ++ t)) i
              ++ concatAll (t' :: ts'))) = _
        rw [bufGet_aset_self, String.append_assoc]
        rfl

/-- Claim C2: applying a non-delta `thinking` event for slot `i` renders
exactly the event's payload text for slot `i` — it overwrites what the render
adapter previously held for `i` and is not appended to anything, regardless of
what was previously buffered for `i`; the delta buffer table is not touched. -/
theorem C2_thinking_overwrites (s : StreamState) (i : Int) (t : String) :
    aget (step s (thinkingEv i t)).state.contentMap i
      = some (Rendered.thinkingBox false t) ∧
    (step s (thinkingEv i t)).state.buffers = s.buffers := by
  constructor
  · show aget (aset s.contentMap i (Rendered.thinkingBox false t)) i
      = some (Rendered.thinkingBox false t)
    exact aget_aset_self s.contentMap i (Rendered.thinkingBox false t)
  · rfl

/-- Claim C4: starting from a slot `i` with no prior buffer, after the first
`k` of the `text.delta` events carrying texts `t1, ..., tn` (applied in arrival
order) the accumulated buffer for `i` is the separator-free concatenation
`t1 ++ ... ++ tk`, and that full accumulated string — not just the latest
delta — is what was emitted to the render adapter for slot `i`. -/
theorem C4_text_delta_accumulation (s : StreamState) (i : Int) (ts : List String)
    (k : Nat) (hfresh : bufGet s.buffers i = "") (hk : 0 < k)
    (hk' : k ≤ ts.length) :
    bufGet (streamLoop s ((ts.take k).map (textDeltaEv i))).buffers i
      = concatAll (ts.take k) ∧
    aget (streamLoop s ((ts.take k).map (textDeltaEv i))).contentMap i
      = some (Rendered.written (concatAll (ts.take k))) := by
  have hne : ts.take k ≠ [] := by
    intro hnil
    have hlen := congrArg List.length hnil
    rw [List.length_take] at hlen
    rcases Nat.min_eq_zero_iff.mp hlen with h0 | h0 <;> omega
  obtain ⟨hbuf, hmap⟩ := textDeltaRun i (ts.take k) s
  rw [hfresh] at hbuf hmap
  exact ⟨hbuf.trans rfl, (hmap hne).trans rfl⟩

/-- Witness for C4 at the concrete scenario-1 deltas `"Here is "`,
`"your revenue."` on fresh slot 0, with `k = 2`. -/
theorem C4_witness :
    bufGet ([] : List (Int × String)) 0 = "" ∧ 0 < 2 ∧
      2 ≤ (["Here is ", "your revenue."] : List String).length ∧
    (bufGet (streamLoop
        ⟨[], [], some "Waiting for response...", [], []⟩
        ((["Here is ", "your revenue."].take 2).map (textDeltaEv 0))).buffers 0
      = concatAll (["Here is ", "your revenue."].take 2) ∧
     aget (streamLoop
        ⟨[], [], some "Waiting for response...", [], []⟩
        ((["Here is ", "your revenue."].take 2).map (textDeltaEv 0))).contentMap 0
      = some (Rendered.written (concatAll (["Here is ", "your revenue."].take 2)))) :=
  ⟨rfl, by decide, by decide,
    C4_text_delta_accumulation
      ⟨[], [], some "Waiting for response...", [], []⟩ 0
      ["Here is ", "your revenue."] 2 rfl (by decide) (by decide)⟩

/-- Claim C5: applying a terminal `response` event appends its decoded payload
`{role, content}` to the transcript verbatim — the last message of the
resulting transcript is exactly that payload, whatever its content items
(including ones whose indices never appeared in any delta/atomic event). -/
theorem C5_response_verbatim (s : StreamState) (role : String)
    (content : List ContentItem) :
    (step s ⟨"response", RawPayload.responseP role content⟩).state.messages
      = s.messages ++ [⟨role, content⟩] ∧
    ((step s ⟨"response", RawPayload.responseP role content⟩).state.messages).getLast?
      = some ⟨role, content⟩ := by
  refine ⟨rfl, ?_⟩
  show (s.messages ++ [(⟨role, content⟩ : Message)]).getLast? = some ⟨role, content⟩
  exact List.getLast?_concat s.messages

/-- Claim C7: with filter snapshot `[{field := "region", values := ["US","EU"]}]`
the augmented prompt for `"show revenue"` is exactly
`"show revenue region IN ('US', 'EU')"`, and with an empty snapshot every user
text passes through unchanged. -/
theorem C7_scenario2_and_passthrough :
    build_full_prompt "show revenue" [⟨"region", ["US", "EU"]⟩]
      = "show revenue region IN ('US', 'EU')" ∧
    ∀ p : String, build_full_prompt p [] = p :=
  ⟨rfl, fun _ => rfl⟩

/-- Counterexample to claim C6 as stated: a filter whose value set has exactly
one element is NOT rendered as an equality clause `field = value`; the source
renders it with the same `IN` shape as every other arity. -/
theorem C6_counterexample :
    build_full_prompt "show revenue" [⟨"region", ["US"]⟩]
      = "show revenue region IN ('US')" ∧
    build_full_prompt "show revenue" [⟨"region", ["US"]⟩]
      ≠ "show revenue region = 'US'" :=
  ⟨rfl, by decide⟩

/-- Claim C6 (amended): for every non-empty filter snapshot the prompt
augmenter renders every filter of the snapshot as
`field IN ('v1', 'v2', ...)` regardless of its arity — a one-element filter
also gets the `IN` clause shape, never `field = value` — and joins the
clauses with `' AND '` after the user text. -/
theorem C6_amended_in_clause_any_arity (p : String) (fs : List Filter)
    (h : fs ≠ []) :
    build_full_prompt p fs
      = p ++ " " ++ String.intercalate " AND " (fs.map (fun f =>
          f.field ++ " IN ("
            ++ String.intercalate ", " (f.values.map (fun v => "'" ++ v ++ "'"))
            ++ ")")) := by
  cases fs with
  | nil => exact absurd rfl h
  | cons f fs' => rfl

/-- Witness for C6 (amended) at a two-filter snapshot of mixed arities: both
the two-element `region` filter and the one-element `segment` filter are
rendered as `IN` clauses and conjoined. -/
theorem C6_amended_witness :
    (([⟨"region", ["US", "EU"]⟩, ⟨"segment", ["Retail"]⟩] : List Filter) ≠ []) ∧
    build_full_prompt "show revenue"
        [⟨"region", ["US", "EU"]⟩, ⟨"segment", ["Retail"]⟩]
      = "show revenue" ++ " " ++ String.intercalate " AND "
          (([⟨"region", ["US", "EU"]⟩, ⟨"segment", ["Retail"]⟩] : List Filter).map
            (fun f => f.field ++ " IN ("
              ++ String.intercalate ", " (f.values.map (fun v => "'" ++ v ++ "'"))
              ++ ")")) ∧
    build_full_prompt "show revenue"
        [⟨"region", ["US", "EU"]⟩, ⟨"segment", ["Retail"]⟩]
      = "show revenue region IN ('US', 'EU') AND segment IN ('Retail')" :=
  ⟨by decide,
    C6_amended_in_clause_any_arity "show revenue"
      [⟨"region", ["US", "EU"]⟩, ⟨"segment", ["Retail"]⟩] (by decide),
    rfl⟩

/-- Claim C8: a `table` event finalizes its slot atomically: the reducer
extracts the column-name list from the payload's column metadata
(`result_set.result_set_meta_data.row_type`, the spec's `columns:[{name}]`)
and the row matrix from `result_set.data`, and emits a table with exactly
those columns and rows to the render adapter; no buffering occurs and the
transcript is untouched.  In particular the scenario-4 payload with data
`[[1,"a"]]` and column names `id`, `label` renders columns `["id","label"]`
and the single row `[1,"a"]`. -/
theorem C8_table_event (s : StreamState) (i : Int) (rows : List (List Cell))
    (cols : List ColumnInfo) :
    aget (step s (tableEv i rows cols)).state.contentMap i
      = some (Rendered.dataframe (cols.map (fun col => col.name)) rows) ∧
    (step s (tableEv i rows cols)).state.buffers = s.buffers ∧
    (step s (tableEv i rows cols)).state.messages = s.messages ∧
    aget (step ⟨[], [], none, [], []⟩
        (tableEv 0 [[Cell.num 1, Cell.str "a"]] [⟨"id"⟩, ⟨"label"⟩])).state.contentMap 0
      = some (Rendered.dataframe ["id", "label"] [[Cell.num 1, Cell.str "a"]]) := by
  refine ⟨?_, rfl, rfl, rfl⟩
  show aget (aset s.contentMap i
      (Rendered.dataframe (cols.map (fun col => col.name)) rows)) i
    = some (Rendered.dataframe (cols.map (fun col => col.name)) rows)
  exact aget_aset_self s.contentMap i _

/-- Counterexample to claim C3 as stated: after a single malformed event (a
recognized kind tag whose payload fails to decode), the subsequent events of
the turn are NOT processed — the following well-formed `text.delta` never
reaches the buffer, which stays `""` instead of the claimed `"hello"`. -/
theorem C3_counterexample :
    bufGet (stream_events [] []
        [⟨"response.text.delta", RawPayload.garbage "not the delta schema"⟩,
         textDeltaEv 0 "hello"]).buffers 0 = "" ∧
    bufGet (stream_events [] []
        [⟨"response.text.delta", RawPayload.garbage "not the delta schema"⟩,
         textDeltaEv 0 "hello"]).buffers 0 ≠ "hello" :=
  ⟨rfl, by decide⟩

/-- Claim C3 (amended): a decode failure on an event with a recognized kind
tag aborts the turn — the `from_json` exception propagates out of the loop, so
no subsequent event is processed — but it never alters previously-applied
transcript or buffer state (the loop ends in exactly the state reached so
far).  An event whose kind tag is unrecognized is instead skipped silently and
the turn continues with the remaining events. -/
theorem C3_amended (s : StreamState) (e : RawEvent) (suffix : List RawEvent) :
    (classify e = Decoded.decodeFailure → streamLoop s (e :: suffix) = s) ∧
    (classify e = Decoded.unknown → streamLoop s (e :: suffix) = streamLoop s suffix) := by
  constructor
  · intro h
    simp only [streamLoop, step, h, applyDecoded]
  · intro h
    simp only [streamLoop, step, h, applyDecoded]

/-- Witness for C3 (amended): a garbage-payload `text.delta` aborts, leaving
the initial state; an unrecognized kind is skipped and the rest of the stream
is still processed. -/
theorem C3_amended_witness :
    (classify ⟨"response.text.delta", RawPayload.garbage "oops"⟩
        = Decoded.decodeFailure ∧
      streamLoop ⟨[], [], none, [], []⟩
        [⟨"response.text.delta", RawPayload.garbage "oops"⟩, textDeltaEv 0 "hello"]
        = ⟨[], [], none, [], []⟩) ∧
    (classify ⟨"mystery.kind", RawPayload.statusP "hi"⟩ = Decoded.unknown ∧
      streamLoop ⟨[], [], none, [], []⟩
        (⟨"mystery.kind", RawPayload.statusP "hi"⟩ :: [textDeltaEv 0 "hello"])
        = streamLoop ⟨[], [], none, [], []⟩ [textDeltaEv 0 "hello"]) :=
  ⟨⟨rfl, (C3_amended ⟨[], [], none, [], []⟩
      ⟨"response.text.delta", RawPayload.garbage "oops"⟩
      [textDeltaEv 0 "hello"]).1 rfl⟩,
   ⟨rfl, (C3_amended ⟨[], [], none, [], []⟩
      ⟨"mystery.kind", RawPayload.statusP "hi"⟩
      [textDeltaEv 0 "hello"]).2 rfl⟩⟩

/-- Counterexample to claim C1 as stated: in a streamed turn in which a
`response` event precedes the `error` event, the error handler pops only the
most recently appended message (the assistant response), so the transcript
keeps the speculative user message and ends with one message more than its
pre-turn length (1 instead of the pre-turn 0). -/
theorem C1_counterexample :
    (process_new_message [] [] "show revenue" []
        [responseEv ⟨"assistant", [ContentItem.text "hi"]⟩,
         errorEvent "timeout" 504]).messages
      = [userMessage "show revenue" []] ∧
    (process_new_message [] [] "show revenue" []
        [responseEv ⟨"assistant", [ContentItem.text "hi"]⟩,
         errorEvent "timeout" 504]).messages.length ≠ 0 :=
  ⟨rfl, by decide⟩

/-- Claim C1 (amended): if the stream emits an `error` event and no `response`
(or `error`, or malformed) event precedes it, then after the reducer handles
it the transcript has exactly its pre-turn contents — the most recently
appended message, the speculative user message, is removed — the error
message and code are surfaced to the error sink as the source's
`f"Error: {message} (code: {code})"` string, and no further events of the
stream are processed.  (In general the handler removes exactly the most
recently appended message, whatever it is.) -/
theorem C1_amended (msgs : List Message) (errs : List String) (p : String)
    (fs : List Filter) (pre suffix : List RawEvent) (m : String) (c : Int)
    (h : ∀ e ∈ pre, benign e = true) :
    (process_new_message msgs errs p fs (pre ++ errorEvent m c :: suffix)).messages
      = msgs ∧
    (process_new_message msgs errs p fs (pre ++ errorEvent m c :: suffix)).errors
      = errs ++ [errorText ⟨m, c⟩] ∧
    process_new_message msgs errs p fs (pre ++ errorEvent m c :: suffix)
      = process_new_message msgs errs p fs (pre ++ [errorEvent m c]) := by
  obtain ⟨s', hloop, hm, he⟩ := benign_run pre
    { contentMap := [], buffers := [],
      spinnerLabel := some "Waiting for response...",
      messages := msgs ++ [userMessage p fs], errors := errs } h
  have hne : s'.messages.isEmpty = false := by
    rw [hm]
    simp
  have hstep : step s' (errorEvent m c) = Outcome.halt { s' with
      errors := s'.errors ++ [errorText ⟨m, c⟩],
      messages := s'.messages.dropLast } := by
    simp [step, classify, errorEvent, ErrorEventData.from_json, applyDecoded, hne]
  have hfin : ∀ rest : List RawEvent,
      streamLoop s' (errorEvent m c :: rest) = { s' with
        errors := s'.errors ++ [errorText ⟨m, c⟩],
        messages := s'.messages.dropLast } := by
    intro rest
    simp only [streamLoop, hstep]
  refine ⟨?_, ?_, ?_⟩
  · show (streamLoop
        { contentMap := [], buffers := [],
          spinnerLabel := some "Waiting for response...",
          messages := msgs ++ [userMessage p fs], errors := errs }
        (pre ++ errorEvent m c :: suffix)).messages = msgs
    rw [hloop (errorEvent m c :: suffix), hfin suffix]
    show s'.messages.dropLast = msgs
    rw [hm]
    exact List.dropLast_concat
  · show (streamLoop
        { contentMap := [], buffers := [],
          spinnerLabel := some "Waiting for response...",
          messages := msgs ++ [userMessage p fs], errors := errs }
        (pre ++ errorEvent m c :: suffix)).errors = errs ++ [errorText ⟨m, c⟩]
    rw [hloop (errorEvent m c :: suffix), hfin suffix]
    show s'.errors ++ [errorText ⟨m, c⟩] = errs ++ [errorText ⟨m, c⟩]
    rw [he]
  · show streamLoop
        { contentMap := [], buffers := [],
          spinnerLabel := some "Waiting for response...",
          messages := msgs ++ [userMessage p fs], errors := errs }
        (pre ++ errorEvent m c :: suffix)
      = streamLoop
        { contentMap := [], buffers := [],
          spinnerLabel := some "Waiting for response...",
          messages := msgs ++ [userMessage p fs], errors := errs }
        (pre ++ [errorEvent m c])
    rw [hloop (errorEvent m c :: suffix), hloop [errorEvent m c],
      hfin suffix, hfin []]

/-- Witness for C1 (amended) at the scenario-3 turn: `text.delta{0,"partial"}`
then `error{"timeout", 504}` (with a trailing event that must not be
processed), from an empty pre-turn transcript. -/
theorem C1_witness :
    (∀ e ∈ [textDeltaEv 0 "partial"], benign e = true) ∧
    ((process_new_message [] [] "show revenue" []
        ([textDeltaEv 0 "partial"] ++ errorEvent "timeout" 504
          :: [textDeltaEv 0 "ignored"])).messages = [] ∧
     (process_new_message [] [] "show revenue" []
        ([textDeltaEv 0 "partial"] ++ errorEvent "timeout" 504
          :: [textDeltaEv 0 "ignored"])).errors
        = [] ++ [errorText ⟨"timeout", 504⟩] ∧
     process_new_message [] [] "show revenue" []
        ([textDeltaEv 0 "partial"] ++ errorEvent "timeout" 504
          :: [textDeltaEv 0 "ignored"])
       = process_new_message [] [] "show revenue" []
        ([textDeltaEv 0 "partial"] ++ [errorEvent "timeout" 504])) :=
  ⟨by decide,
    C1_amended [] [] "show revenue" [] [textDeltaEv 0 "partial"]
      [textDeltaEv 0 "ignored"] "timeout" 504 (by decide)⟩

/-- Claim C9: every reducer operation on the transcript either leaves it
unchanged, appends exactly one message at the end, or — only on the `error`
transition — removes exactly the last message; consequently every message of
the transcript other than its possibly-dropped last element is preserved
untouched (the `length - 1` prefix is invariant).  The user-turn driver's own
transcript operation is likewise a single append of the augmented user
message. -/
theorem C9_transcript_append_only (s : StreamState) (e : RawEvent) :
    ((step s e).state.messages = s.messages ∨
      (∃ m : Message, (step s e).state.messages = s.messages ++ [m]) ∨
      ((∃ d : ErrorEventData, classify e = Decoded.errorEv d) ∧
        (step s e).state.messages = s.messages.dropLast)) ∧
    (step s e).state.messages.take (s.messages.length - 1)
      = s.messages.take (s.messages.length - 1) ∧
    (∀ (msgs : List Message) (errs : List String) (p : String)
      (fs : List Filter) (events : List RawEvent),
      process_new_message msgs errs p fs events
        = stream_events (msgs ++ [userMessage p fs]) errs events) := by
  have key : (step s e).state.messages = s.messages ∨
      (∃ m : Message, (step s e).state.messages = s.messages ++ [m]) ∨
      ((∃ d : ErrorEventData, classify e = Decoded.errorEv d) ∧
        (step s e).state.messages = s.messages.dropLast) := by
    cases hc : classify e
    case errorEv d =>
      simp only [step, hc, applyDecoded]
      split
      · exact Or.inl rfl
      · exact Or.inr (Or.inr ⟨⟨d, rfl⟩, rfl⟩)
    case response m =>
      exact Or.inr (Or.inl ⟨m, by simp only [step, hc, applyDecoded, Outcome.state]⟩)
    all_goals exact Or.inl (by simp only [step, hc, applyDecoded, Outcome.state])
  refine ⟨key, ?_, fun _ _ _ _ _ => rfl⟩
  rcases key with hk | ⟨m, hk⟩ | ⟨_, hk⟩ <;> rw [hk]
  · rw [List.take_append_eq_append_take]
    have h0 : s.messages.length - 1 - s.messages.length = 0 := by omega
    rw [h0, List.take_zero, List.append_nil]
  · rw [List.dropLast_eq_take, List.take_take]
    rw [Nat.min_self]

/-- Claim C10: a `response` event does not terminate event processing — the
loop continues past it, and a stream containing `k` well-formed `response`
events with no `error` (and no decode failure) appends exactly those `k`
payload messages, in order, to the transcript. -/
theorem C10_response_not_terminal (events : List RawEvent) :
    ∀ s : StreamState, (∀ e ∈ events, processable e = true) →
      (streamLoop s events).messages = s.messages ++ responsesOf events := by
  induction events with
  | nil =>
    intro s _
    simp [streamLoop, responsesOf]
  | cons e rest ih =>
    intro s h
    have hp := h e (List.mem_cons_self e rest)
    have hrest := fun x hx => h x (List.mem_cons_of_mem e hx)
    cases hc : classify e
    case errorEv d => simp [processable, hc] at hp
    case decodeFailure => simp [processable, hc] at hp
    all_goals
      simp only [streamLoop, step, hc, applyDecoded, responsesOf]
      rw [ih _ hrest]
      try simp

/-- Witness for C10: two `response` events with an intervening `text.delta`
and no error append exactly the two response payloads; the event after the
first `response` is still processed. -/
theorem C10_witness :
    (∀ e ∈ [responseEv ⟨"assistant", [ContentItem.text "one"]⟩,
            textDeltaEv 0 "still processed",
            responseEv ⟨"assistant", [ContentItem.text "two"]⟩],
        processable e = true) ∧
    (streamLoop ⟨[], [], none, [], []⟩
        [responseEv ⟨"assistant", [ContentItem.text "one"]⟩,
         textDeltaEv 0 "still processed",
         responseEv ⟨"assistant", [ContentItem.text "two"]⟩]).messages
      = [] ++ responsesOf
          [responseEv ⟨"assistant", [ContentItem.text "one"]⟩,
           textDeltaEv 0 "still processed",
           responseEv ⟨"assistant", [ContentItem.text "two"]⟩] :=
  ⟨by decide,
    C10_response_not_terminal
      [responseEv ⟨"assistant", [ContentItem.text "one"]⟩,
       textDeltaEv 0 "still processed",
       responseEv ⟨"assistant", [ContentItem.text "two"]⟩]
      ⟨[], [], none, [], []⟩ (by decide)⟩

end DataAgentDemo
